import Mathlib

/-!
Shallow embedding of the `gcf-thumbnails` Cloud Function (src/index.js),
together with theorems checking the natural-language specification against it.

Modelling conventions:
* A `Uint8Array` / `Buffer` is a `List Nat` of byte values.
* JavaScript `null` results are `Option.none`.
* Promise rejection is `Except.error`; the JS `Error` messages are modelled by
  the enumeration `PErr` (one constructor per distinct error site).
* JS number arithmetic in the size planner (`Math.sqrt`, `Math.round`) is
  modelled over `ℝ` with the Mathlib `Real.sqrt` and `round`
  (`round x = ⌊x + 1/2⌋`, matching the half-up behaviour of `Math.round`).
* The external collaborators (storage download/upload, imagemagick, the
  dominant-color library, the filesystem) are modelled by an `Oracle` record
  giving the outcome of each call; the orchestrator is a pure function of the
  oracle which also returns the trace of completed pipeline steps, the
  file-system scratch operations it performed and the uploads it made.
-/

/-- Error enumeration for every rejection site of src/index.js.
`invalidThumbDims`, `sosNotFound`, `eoiNotFound` correspond to the literal
`Error` messages "Invalid thumb dimensions", "SOS marker not found" and
"EOI marker not found"; the others model rejections propagated from the
external collaborators. -/
inductive PErr
  | downloadFailed
  | colorFailed
  | metadataFailed
  | identifyFailed
  | convertFailed
  | identifyFinalFailed
  | readFailed
  | invalidThumbDims
  | sosNotFound
  | eoiNotFound
  | writeFailed
  | uploadFailed
deriving DecidableEq, Repr

/-- Image dimensions as reported by `im.identify` (`features.width/height`). -/
structure Dims where
  width : Nat
  height : Nat
deriving DecidableEq, Repr

/-- The loop body of `findMarker` (src/index.js lines 162-178):
`while (index < data.length)` reading `data[index]`, comparing
`previousByte === 0xFF && currentByte === marker`, returning `index - 1`
on a match and advancing otherwise.  The loop is embedded structurally by
recursing on the list suffix `data.drop index` while carrying the absolute
`index` and the `previousByte` state (initially `null`, i.e. `none`). -/
def findMarkerGo (marker : Nat) : List Nat → Nat → Option Nat → Option Nat
  | [], _, _ => none
  | currentByte :: rest, index, previousByte =>
    if previousByte = some 0xFF ∧ currentByte = marker then some (index - 1)
    else findMarkerGo marker rest (index + 1) (some currentByte)

/-- `findMarker(marker, startIndex, data)` from src/index.js lines 162-178:
scans forward from `startIndex`; returns the index of the `0xFF` escape byte
of the first `0xFF, marker` pair it encounters, or `none` (JS `null`). -/
def findMarker (marker startIndex : Nat) (data : List Nat) : Option Nat :=
  findMarkerGo marker (data.drop startIndex) startIndex none

/-- The two-byte escape sequence `0xFF, marker` occurs with its escape byte at
index `i` of `data`. -/
def isPairAt (marker : Nat) (data : List Nat) (i : Nat) : Prop :=
  data[i]? = some 0xFF ∧ data[i + 1]? = some marker

instance (marker : Nat) (data : List Nat) (i : Nat) : Decidable (isPairAt marker data i) := by
  unfold isPairAt; infer_instance

/-- `extractThumbData` (src/index.js lines 189-234) applied to the bytes of the
resized file.  Mirrors the source: the falsy-dimension guard
(`!dimensions.width || !dimensions.height`, i.e. a zero dimension) rejects
first; then the Start-of-Scan marker (`0xFF 0xDA`) is looked up from index 0
and the End-of-Image marker (`0xFF 0xD9`) from the SOS index; the JPEG payload
is `buffer.slice(sosIndex + 2, eoiIndex)` (modelled as `take`/`drop`), and the
result prepends the header `[0x01, 0x01, width, height]` whose size bytes are
reduced mod 256 exactly as the `Uint8Array` constructor does. -/
def extractThumbData (buffer : List Nat) (width height : Nat) : Except PErr (List Nat) :=
  if width = 0 ∨ height = 0 then .error .invalidThumbDims
  else
    match findMarker 0xDA 0 buffer with
    | none => .error .sosNotFound
    | some sosIndex =>
      match findMarker 0xD9 sosIndex buffer with
      | none => .error .eoiNotFound
      | some eoiIndex =>
        .ok ([0x01, 0x01, width % 256, height % 256] ++
              (buffer.take eoiIndex).drop (sosIndex + 2))

/-- The fixed pixel budget `PIXEL_BUDGET = 50 * 50` (src/index.js line 41). -/
def PIXEL_BUDGET : ℝ := 50 * 50

/-- The size-planning arithmetic of `convertImage` (src/index.js lines 123-126)
and `downscaleImage` (historical revision, lines 64-68), with the budget as a
parameter as in the `planSize` of the spec:
`ratio = Math.sqrt(budget / (width * height))`,
`thumbWidth = Math.round(ratio * width)`,
`thumbHeight = Math.round(ratio * height)`.
The source performs no validation of `width`/`height` whatsoever: the formula
is applied unconditionally and the function always produces a pair. -/
noncomputable def planSize (width height budget : ℝ) : ℤ × ℤ :=
  (round (Real.sqrt (budget / (width * height)) * width),
   round (Real.sqrt (budget / (width * height)) * height))

/-- The plan computed by `convertImage` itself, with the budget fixed to
`PIXEL_BUDGET`. -/
noncomputable def convertImagePlan (width height : ℝ) : ℤ × ℤ :=
  planSize width height PIXEL_BUDGET

/-- Key/value metadata object, modelled as an association list with
first-match lookup. -/
def lookupMeta (m : List (String × String)) (k : String) : Option String :=
  (m.find? (fun p => p.1 == k)).map (fun p => p.2)

/-- `Object.assign(target, source)`: every key of `source` overwrites the same
key of `target`.  Under first-match `lookupMeta` semantics this is modelled by
putting the `source` entries in front. -/
def objectAssign (target source : List (String × String)) : List (String × String) :=
  source ++ target

/-- The metadata object built by `storeThumbData` (src/index.js lines 259-265):
`{dominantColor: dominantColor}` with the metadata of the original file merged over
it by `Object.assign`. -/
def storeMetadata (dominantColor : String) (originalMetadata : List (String × String)) :
    List (String × String) :=
  objectAssign [(("dominantColor"), dominantColor)] originalMetadata

/-- Pipeline steps, named after the state machine of the spec.  `blurred` is listed
because the machine of the spec contains a blur state; src/index.js has no blur
call, so the embedded orchestrator never emits it. -/
inductive Step
  | downloaded
  | dominantColorKnown
  | metadataKnown
  | dimensionsKnown
  | resized
  | finalDimensionsKnown
  | blurred
  | recordExtracted
  | uploaded
deriving DecidableEq, Repr

/-- Local scratch-file operations.  `removedScratch` exists to state the
cleanup requirement of the spec; src/index.js contains no unlink call, so the
embedded orchestrator never emits it. -/
inductive FileOp
  | createdScratch
  | removedScratch
deriving DecidableEq, Repr

/-- One `bucket.upload` call made by `uploadFile` (src/index.js lines 88-109),
as invoked from `storeThumbData`. -/
structure UploadRecord where
  destination : String
  contentType : String
  metadata : List (String × String)
  body : List Nat
deriving DecidableEq, Repr

deriving instance DecidableEq for Except

/-- Observable outcome of one invocation: the pipeline steps completed in
order, the scratch-file operations performed, the uploads made, and the final
promise result. -/
structure RunResult where
  trace : List Step
  files : List FileOp
  uploads : List UploadRecord
  result : Except PErr Unit
deriving DecidableEq, Repr

/-- Outcomes of the external collaborator calls of one invocation.
`none` means the call fails (its promise rejects / callback errs). -/
structure Oracle where
  download : Option Unit
  dominantColor : Option String
  getMetadata : Option (Option (List (String × String)))
  identifyOrig : Option Dims
  convert : Option Unit
  identifyFinal : Option Dims
  readThumbFile : Option (List Nat)
  writeTemp : Option Unit
  upload : Option Unit
deriving DecidableEq, Repr

/-- `thumbnailize` (src/index.js lines 290-307) together with the
`storeThumbData` steps it chains into (lines 245-278):
`convertImage` (whose resolved planned dimensions are ignored – the comment at
line 294 re-queries the real dimensions), then `readImageDimensions`, then
`extractThumbData` (dimension guard, then `fs.readFile`, then the marker
logic), then `storeThumbData` (write the record to a fresh `/tmp` scratch
file, merge metadata, upload `<name>.thumbdata`).  `origDims` is the
dimensions argument whose only use in the source is to compute the planned
size passed to the external codec (`planSize origDims` over ℝ); that value
does not influence anything observable here, so it is not threaded further. -/
def thumbnailize (originalFileName : String) (origDims : Dims)
    (originalMetadata : List (String × String)) (dominantColor : String)
    (o : Oracle) : RunResult :=
  match o.convert with
  | none => ⟨[], [], [], .error .convertFailed⟩
  | some _ =>
  match o.identifyFinal with
  | none => ⟨[.resized], [], [], .error .identifyFinalFailed⟩
  | some finalDims =>
  if finalDims.width = 0 ∨ finalDims.height = 0 then
    ⟨[.resized, .finalDimensionsKnown], [], [], .error .invalidThumbDims⟩
  else
  match o.readThumbFile with
  | none => ⟨[.resized, .finalDimensionsKnown], [], [], .error .readFailed⟩
  | some buffer =>
  match extractThumbData buffer finalDims.width finalDims.height with
  | .error e => ⟨[.resized, .finalDimensionsKnown], [], [], .error e⟩
  | .ok thumbData =>
  match o.writeTemp with
  | none => ⟨[.resized, .finalDimensionsKnown, .recordExtracted], [], [], .error .writeFailed⟩
  | some _ =>
  match o.upload with
  | none => ⟨[.resized, .finalDimensionsKnown, .recordExtracted], [.createdScratch], [],
      .error .uploadFailed⟩
  | some _ => ⟨[.resized, .finalDimensionsKnown, .recordExtracted, .uploaded], [.createdScratch],
      [⟨originalFileName ++ ".thumbdata", "application/octet-stream",
        storeMetadata dominantColor originalMetadata, thumbData⟩], .ok ()⟩

/-- `processFile` (src/index.js lines 315-352): download to a fresh `/tmp`
scratch file, dominant color, original metadata (`data[0].metadata || {}`),
original dimensions, then `thumbnailize`.  Each rejection aborts the chain
through the single `.catch`. -/
def processFile (name : String) (o : Oracle) : RunResult :=
  match o.download with
  | none => ⟨[], [], [], .error .downloadFailed⟩
  | some _ =>
  match o.dominantColor with
  | none => ⟨[.downloaded], [.createdScratch], [], .error .colorFailed⟩
  | some color =>
  match o.getMetadata with
  | none => ⟨[.downloaded, .dominantColorKnown], [.createdScratch], [], .error .metadataFailed⟩
  | some metaOpt =>
  match o.identifyOrig with
  | none => ⟨[.downloaded, .dominantColorKnown, .metadataKnown], [.createdScratch], [],
      .error .identifyFailed⟩
  | some dims =>
    ⟨[.downloaded, .dominantColorKnown, .metadataKnown, .dimensionsKnown] ++
        (thumbnailize name dims (metaOpt.getD []) color o).trace,
     [.createdScratch] ++ (thumbnailize name dims (metaOpt.getD []) color o).files,
     (thumbnailize name dims (metaOpt.getD []) color o).uploads,
     (thumbnailize name dims (metaOpt.getD []) color o).result⟩

/-- A storage trigger event (src/index.js lines 362-377). -/
structure TriggerEvent where
  bucket : String
  name : String
  resourceState : String
  metageneration : String
deriving DecidableEq, Repr

/-- `exports.thumbnails` (src/index.js lines 362-377): deletions
(`resourceState` equal to `not_exists`) and metadata-only updates
(`metageneration` different from `1`) resolve immediately without doing
anything; only creation events (`metageneration` equal to `1`) run
`processFile`. -/
def thumbnails (event : TriggerEvent) (o : Oracle) : RunResult :=
  if event.resourceState = "not_exists" then ⟨[], [], [], .ok ()⟩
  else if event.metageneration = "1" then processFile event.name o
  else ⟨[], [], [], .ok ()⟩

/-- The complete step sequence of a fully successful invocation of
src/index.js. -/
def fullOrder : List Step :=
  [.downloaded, .dominantColorKnown, .metadataKnown, .dimensionsKnown,
   .resized, .finalDimensionsKnown, .recordExtracted, .uploaded]

/-- The `thumbnailize`-owned tail of `fullOrder`. -/
def tailOrder : List Step :=
  [.resized, .finalDimensionsKnown, .recordExtracted, .uploaded]

/-- A sample file name for concrete runs. -/
def okName : String := "photo.jpg"

/-- A sample dominant color value. -/
def okColor : String := "suitableHexColor"

/-- Sample original metadata. -/
def okMeta : List (String × String) := [(("author"), ("someone"))]

/-- A minimal well-formed encoded buffer: Start-of-Scan escape pair at
index 0, one payload byte, End-of-Image escape pair at index 3. -/
def okBuffer : List Nat := [0xFF, 0xDA, 0x42, 0xFF, 0xD9]

/-- An oracle on which every collaborator call succeeds. -/
def oracleOK : Oracle :=
  ⟨some (), some okColor, some (some okMeta), some ⟨3904, 2622⟩, some (),
   some ⟨54, 37⟩, some okBuffer, some (), some ()⟩

/-! ## Theorems -/

/-- Helper: full correctness of the `findMarker` loop, relative to the pair
predicate `isPairAt`, for the state reached after one iteration (absolute
index `i + 1`, previous byte `d[i] = b`). -/
theorem findMarkerGo_spec (m : Nat) (d : List Nat) :
    ∀ (n i b : Nat), d.length ≤ i + n → d[i]? = some b →
      ((∀ k, findMarkerGo m (d.drop (i + 1)) (i + 1) (some b) = some k ↔
          i ≤ k ∧ isPairAt m d k ∧ ∀ j, i ≤ j → j < k → ¬ isPairAt m d j) ∧
       (findMarkerGo m (d.drop (i + 1)) (i + 1) (some b) = none ↔
          ∀ k, i ≤ k → ¬ isPairAt m d k)) := by
  intro n
  induction n with
  | zero =>
    intro i b hn hb
    have : i < d.length := (List.getElem?_eq_some_iff.mp hb).1
    omega
  | succ n ih =>
    intro i b hn hb
    have hi : i < d.length := (List.getElem?_eq_some_iff.mp hb).1
    cases h2 : d[i + 1]? with
    | none =>
      have hlen : d.length ≤ i + 1 := List.getElem?_eq_none_iff.mp h2
      have hdrop : d.drop (i + 1) = [] := List.drop_eq_nil_of_le hlen
      rw [hdrop]
      have hnp : ∀ k, i ≤ k → ¬ isPairAt m d k := by
        intro k hk ⟨hk1, hk2⟩
        have hk1' : k < d.length := (List.getElem?_eq_some_iff.mp hk1).1
        have : k = i := by omega
        subst this
        rw [h2] at hk2
        exact Option.noConfusion hk2
      constructor
      · intro k
        constructor
        · intro hgo; exact absurd hgo (by simp [findMarkerGo])
        · rintro ⟨hik, hp, -⟩; exact absurd hp (hnp k hik)
      · simp only [findMarkerGo, true_iff]
        exact hnp
    | some b2 =>
      have hi2 : i + 1 < d.length := (List.getElem?_eq_some_iff.mp h2).1
      have hb2 : d[i + 1] = b2 := (List.getElem?_eq_some_iff.mp h2).2
      have hdrop : d.drop (i + 1) = b2 :: d.drop (i + 2) := by
        rw [List.drop_eq_getElem_cons hi2, hb2]
      rw [hdrop]
      have hpi : isPairAt m d i ↔ (b = 0xFF ∧ b2 = m) := by
        unfold isPairAt
        rw [hb, h2]
        constructor
        · rintro ⟨hx, hy⟩
          exact ⟨Option.some.inj hx, Option.some.inj hy⟩
        · rintro ⟨hx, hy⟩; rw [hx, hy]; exact ⟨rfl, rfl⟩
      by_cases hp : b = 0xFF ∧ b2 = m
      · have hpair : isPairAt m d i := hpi.mpr hp
        have hgo : findMarkerGo m (b2 :: d.drop (i + 2)) (i + 1) (some b) = some i := by
          simp [findMarkerGo, hp.1, hp.2]
        rw [hgo]
        constructor
        · intro k
          constructor
          · intro hk
            have : i = k := Option.some.inj hk
            subst this
            exact ⟨le_refl i, hpair, fun j h1 h2 => by omega⟩
          · rintro ⟨hik, hkp, hmin⟩
            rcases Nat.lt_or_ge i k with hlt | hge
            · exact absurd hpair (hmin i (le_refl i) hlt)
            · have : k = i := by omega
              rw [this]
        · constructor
          · intro hc; exact Option.noConfusion hc
          · intro hall; exact absurd hpair (hall i (le_refl i))
      · have hnpi : ¬ isPairAt m d i := fun hc => hp (hpi.mp hc)
        have hgo : findMarkerGo m (b2 :: d.drop (i + 2)) (i + 1) (some b) =
            findMarkerGo m (d.drop (i + 2)) (i + 2) (some b2) := by
          have hne : ¬ (some b = some 0xFF ∧ b2 = m) := by
            intro ⟨hx, hy⟩; exact hp ⟨Option.some.inj hx, hy⟩
          simp only [findMarkerGo, if_neg hne]
        rw [hgo]
        obtain ⟨ihs, ihn⟩ := ih (i + 1) b2 (by omega) h2
        constructor
        · intro k
          rw [ihs k]
          constructor
          · rintro ⟨hik, hkp, hmin⟩
            refine ⟨by omega, hkp, fun j h1 h2 => ?_⟩
            rcases Nat.eq_or_lt_of_le h1 with heq | hlt
            · rw [← heq]; exact hnpi
            · exact hmin j (by omega) h2
          · rintro ⟨hik, hkp, hmin⟩
            have hne : k ≠ i := fun hc => hnpi (hc ▸ hkp)
            exact ⟨by omega, hkp, fun j h1 h2 => hmin j (by omega) h2⟩
        · rw [ihn]
          constructor
          · intro hall k hk
            rcases Nat.eq_or_lt_of_le hk with heq | hlt
            · rw [← heq]; exact hnpi
            · exact hall k (by omega)
          · intro hall k hk; exact hall k (by omega)

/-- C3: `findMarker(m, s, data)` returns `some k` exactly when `k` is the
index of the escape byte `0xFF` of the first two-byte sequence `0xFF, m`
reachable by scanning forward from `s` (so an occurrence of `m` not
immediately preceded by `0xFF` is never reported, and the index of the escape
byte, not of the marker byte, is returned), and returns the not-found
sentinel `none` exactly when no such pair with escape index at least `s`
exists before the end of the buffer. -/
theorem findMarker_spec (m s : Nat) (d : List Nat) :
    (∀ k, findMarker m s d = some k ↔
        s ≤ k ∧ isPairAt m d k ∧ ∀ j, s ≤ j → j < k → ¬ isPairAt m d j) ∧
    (findMarker m s d = none ↔ ∀ k, s ≤ k → ¬ isPairAt m d k) := by
  unfold findMarker
  cases hs : d[s]? with
  | none =>
    have hlen : d.length ≤ s := List.getElem?_eq_none_iff.mp hs
    have hdrop : d.drop s = [] := List.drop_eq_nil_of_le hlen
    rw [hdrop]
    have hnp : ∀ k, s ≤ k → ¬ isPairAt m d k := by
      intro k hk ⟨hk1, hk2⟩
      have : k < d.length := (List.getElem?_eq_some_iff.mp hk1).1
      omega
    constructor
    · intro k
      constructor
      · intro hgo; exact absurd hgo (by simp [findMarkerGo])
      · rintro ⟨hik, hp, -⟩; exact absurd hp (hnp k hik)
    · simp only [findMarkerGo, true_iff]
      exact hnp
  | some b =>
    have hslt : s < d.length := (List.getElem?_eq_some_iff.mp hs).1
    have hbv : d[s] = b := (List.getElem?_eq_some_iff.mp hs).2
    have hdrop : d.drop s = b :: d.drop (s + 1) := by
      rw [List.drop_eq_getElem_cons hslt, hbv]
    rw [hdrop]
    have hgo : findMarkerGo m (b :: d.drop (s + 1)) s none =
        findMarkerGo m (d.drop (s + 1)) (s + 1) (some b) := by
      have hne : ¬ ((none : Option Nat) = some 0xFF ∧ b = m) := by
        rintro ⟨hx, -⟩; exact Option.noConfusion hx
      simp only [findMarkerGo, if_neg hne]
    rw [hgo]
    exact findMarkerGo_spec m d d.length s b (by omega) hs

/-- Witness for C3 at a concrete buffer: the End-of-Image pair of `okBuffer`
sits with its escape byte at index 3. -/
theorem findMarker_spec_witness : findMarker 0xD9 3 okBuffer = some 3 :=
  ((findMarker_spec 0xD9 3 okBuffer).1 3).mpr
    ⟨le_refl 3, by decide, fun j h1 h2 => absurd (Nat.lt_of_le_of_lt h1 h2) (lt_irrefl 3)⟩

/-- C1 (amended: nonzero dimensions): when the Start-of-Scan scan from index 0
finds its escape byte at `i` and the End-of-Image scan from `i` finds its
escape byte at `j`, `extractThumbData` returns the 4-byte header
`[0x01, 0x01, width mod 256, height mod 256]` concatenated with the payload
`buffer[i+2 .. j)` — the two start-marker bytes are skipped, the two
end-marker bytes are excluded, and dimensions of 256 or more are silently
truncated mod 256. -/
theorem extractThumbData_extracts (buffer : List Nat) (width height i j : Nat)
    (hw : width ≠ 0) (hh : height ≠ 0)
    (hsos : findMarker 0xDA 0 buffer = some i)
    (heoi : findMarker 0xD9 i buffer = some j) :
    extractThumbData buffer width height =
      .ok ([0x01, 0x01, width % 256, height % 256] ++ (buffer.take j).drop (i + 2)) := by
  unfold extractThumbData
  rw [if_neg (not_or.mpr ⟨hw, hh⟩)]
  simp only [hsos, heoi]

/-- Witness for the amended theorem of C1: a 5-byte buffer with the markers at
indices 0 and 3, width 300 (truncating to 44) and height 2. -/
theorem extractThumbData_extracts_witness :
    extractThumbData okBuffer 300 2 = .ok ([0x01, 0x01, 44, 2] ++ (okBuffer.take 3).drop 2) :=
  extractThumbData_extracts okBuffer 300 2 0 3 (by decide) (by decide) (by decide) (by decide)

/-- Counterexample to C1 as stated (which quantifies over every width and
height): at width 0 the falsy-dimension guard of src/index.js line 190
rejects with the invalid-dimensions error instead of returning the record. -/
theorem extractThumbData_zero_dims_cex :
    extractThumbData okBuffer 0 5 = Except.error PErr.invalidThumbDims ∧
    extractThumbData okBuffer 0 5 ≠
      .ok ([0x01, 0x01, 0 % 256, 5 % 256] ++ (okBuffer.take 3).drop 2) := by
  exact ⟨rfl, by decide⟩

/-- C5: for nonzero dimensions, `extractThumbData` fails with the
start-marker error when the escape+0xDA scan from the start finds nothing,
and otherwise fails with the end-marker error when the escape+0xD9 scan from
the Start-of-Scan index finds nothing; in both cases the result is an
error, so no record is produced. -/
theorem extractThumbData_marker_errors (buffer : List Nat) (width height : Nat)
    (hw : width ≠ 0) (hh : height ≠ 0) :
    (findMarker 0xDA 0 buffer = none →
        extractThumbData buffer width height = Except.error PErr.sosNotFound) ∧
    (∀ i, findMarker 0xDA 0 buffer = some i → findMarker 0xD9 i buffer = none →
        extractThumbData buffer width height = Except.error PErr.eoiNotFound) := by
  have hcond : ¬ (width = 0 ∨ height = 0) := not_or.mpr ⟨hw, hh⟩
  constructor
  · intro hnone
    unfold extractThumbData
    rw [if_neg hcond, hnone]
  · intro i hi hnone
    unfold extractThumbData
    rw [if_neg hcond]
    simp only [hi, hnone]

/-- Witness for C5: the empty buffer has no Start-of-Scan marker. -/
theorem extractThumbData_marker_errors_witness :
    extractThumbData [] 1 1 = Except.error PErr.sosNotFound :=
  (extractThumbData_marker_errors [] 1 1 (by decide) (by decide)).1 rfl

/-- Helper: `round x ≥ 1` once `x ≥ 1/2` (Math.round rounds half up). -/
theorem one_le_round_of_half_le (x : ℝ) (hx : 1 / 2 ≤ x) : 1 ≤ round x := by
  rw [round_eq, Int.le_floor]
  push_cast
  linarith

/-- Helper: the scaled width `sqrt(b/(w*h)) * w` reaches `1/2` as soon as
`h ≤ 4*b*w`. -/
theorem half_le_sqrt_mul (w h b : ℝ) (hw : 0 < w) (hh : 0 < h) (hb : 0 < b)
    (hbound : h ≤ 4 * b * w) : 1 / 2 ≤ Real.sqrt (b / (w * h)) * w := by
  have hq : 0 ≤ b / (w * h) := by positivity
  have hs2 : Real.sqrt (b / (w * h)) ^ 2 = b / (w * h) := Real.sq_sqrt hq
  have hsn : 0 ≤ Real.sqrt (b / (w * h)) := Real.sqrt_nonneg _
  have key : (Real.sqrt (b / (w * h)) * w) ^ 2 = b * w / h := by
    rw [mul_pow, hs2]
    field_simp
    ring
  have hq2 : 1 / 4 ≤ (Real.sqrt (b / (w * h)) * w) ^ 2 := by
    rw [key, le_div_iff₀ hh]
    linarith
  have h0 : 0 ≤ Real.sqrt (b / (w * h)) * w := mul_nonneg hsn hw.le
  calc 1 / 2 = Real.sqrt (1 / 4) := by
        rw [show (1 / 4 : ℝ) = (1 / 2) ^ 2 by norm_num, Real.sqrt_sq (by norm_num)]
    _ ≤ Real.sqrt ((Real.sqrt (b / (w * h)) * w) ^ 2) := Real.sqrt_le_sqrt hq2
    _ = Real.sqrt (b / (w * h)) * w := Real.sqrt_sq h0

/-- C2 (amended): the size planner computes
`ratio = sqrt(budget / (w*h))` and returns `(round(ratio*w), round(ratio*h))`;
both results are at least 1 provided the source is not too elongated for the
budget (`h ≤ 4*b*w` and `w ≤ 4*b*h`, i.e. each scaled dimension reaches 1/2
before rounding) — without that proviso a dimension can round to 0, see the
counterexample. -/
theorem planSize_formula_pos (w h b : ℝ) (hw : 0 < w) (hh : 0 < h) (hb : 0 < b)
    (hwb : h ≤ 4 * b * w) (hhb : w ≤ 4 * b * h) :
    planSize w h b =
      (round (Real.sqrt (b / (w * h)) * w), round (Real.sqrt (b / (w * h)) * h)) ∧
    1 ≤ (planSize w h b).1 ∧ 1 ≤ (planSize w h b).2 := by
  refine ⟨rfl, ?_, ?_⟩
  · exact one_le_round_of_half_le _ (half_le_sqrt_mul w h b hw hh hb hwb)
  · have hsym := half_le_sqrt_mul h w b hh hw hb hhb
    rw [mul_comm h w] at hsym
    exact one_le_round_of_half_le _ hsym

/-- Witness for the amended theorem of C2 at a 1x1 source and the fixed
2500-pixel budget of the code. -/
theorem planSize_formula_pos_witness :
    planSize 1 1 2500 =
      (round (Real.sqrt ((2500 : ℝ) / (1 * 1)) * 1),
       round (Real.sqrt ((2500 : ℝ) / (1 * 1)) * 1)) ∧
    1 ≤ (planSize 1 1 2500).1 ∧ 1 ≤ (planSize 1 1 2500).2 :=
  planSize_formula_pos 1 1 2500 (by norm_num) (by norm_num) (by norm_num)
    (by norm_num) (by norm_num)

/-- Counterexample to C2 as stated: for the positive input
`w = 1, h = 10001` and the positive budget 2500 used by the code itself
(`convertImagePlan` is exactly `planSize` at `PIXEL_BUDGET`), the planned
width is `round(sqrt(2500/10001)) = 0`, not at least 1 — and the planned
pixel count is therefore 0, not within rounding tolerance of the budget. -/
theorem planSize_min_cex :
    (planSize 1 10001 2500).1 = 0 ∧ convertImagePlan 1 10001 = planSize 1 10001 2500 := by
  constructor
  · show round (Real.sqrt ((2500 : ℝ) / (1 * 10001)) * 1) = 0
    have h1 : ((2500 : ℝ) / (1 * 10001)) = 2500 / 10001 := by norm_num
    have hlt : Real.sqrt ((2500 : ℝ) / 10001) < 1 / 2 := by
      rw [Real.sqrt_lt' (by norm_num)]
      norm_num
    have hge : 0 ≤ Real.sqrt ((2500 : ℝ) / 10001) := Real.sqrt_nonneg _
    rw [h1, mul_one, round_eq, Int.floor_eq_zero_iff, Set.mem_Ico]
    constructor <;> [linarith; linarith]
  · unfold convertImagePlan PIXEL_BUDGET
    norm_num

/-- Helper: rounding a nonpositive number gives a nonpositive integer. -/
theorem round_nonpos_of_nonpos (x : ℝ) (hx : x ≤ 0) : round x ≤ 0 := by
  rw [round_eq]
  have hlt : (⌊x + 1 / 2⌋ : ℤ) < 1 := by
    rw [Int.floor_lt]
    push_cast
    linarith
  omega

/-- C4 (amended): the size planner performs no input validation at all — for
negative dimensions it still applies the formula and returns a (nonpositive,
degenerate) pair instead of failing with any InvalidInput error; src/index.js
lines 119-152 contain no dimension check. -/
theorem planSize_no_validation (w h b : ℝ) (hw : w < 0) (hh : h < 0) :
    (planSize w h b).1 ≤ 0 ∧ (planSize w h b).2 ≤ 0 := by
  have hsn : 0 ≤ Real.sqrt (b / (w * h)) := Real.sqrt_nonneg _
  exact ⟨round_nonpos_of_nonpos _ (mul_nonpos_iff.mpr (Or.inl ⟨hsn, hw.le⟩)),
         round_nonpos_of_nonpos _ (mul_nonpos_iff.mpr (Or.inl ⟨hsn, hh.le⟩))⟩

/-- Witness for the amended theorem of C4. -/
theorem planSize_no_validation_witness :
    (planSize (-1) (-1) 2500).1 ≤ 0 ∧ (planSize (-1) (-1) 2500).2 ≤ 0 :=
  planSize_no_validation (-1) (-1) 2500 (by norm_num) (by norm_num)

/-- Counterexample to C4 as stated: at the invalid input
`origWidth = origHeight = -1` (both ≤ 0) the planner does not fail with an
InvalidInput error — it computes `sqrt(2500/1) = 50` (exact, also in IEEE
doubles) and returns the degenerate pair `(-50, -50)`. -/
theorem planSize_negative_cex : planSize (-1) (-1) 2500 = (-50, -50) := by
  have h1 : ((2500 : ℝ) / (-1 * -1)) = 2500 := by norm_num
  have h2 : Real.sqrt (2500 : ℝ) = 50 := by
    rw [show (2500 : ℝ) = 50 ^ 2 by norm_num, Real.sqrt_sq (by norm_num)]
  unfold planSize
  rw [h1, h2, show ((50 : ℝ) * -1) = ((-50 : ℤ) : ℝ) by norm_num, round_intCast]

/-- Helper: per-oracle facts about the `thumbnailize` tail of the pipeline —
its trace extends along `tailOrder` only, it succeeds exactly when the whole
tail ran, a failure leaves no upload behind, and no scratch file is ever
removed. -/
theorem thumbnailize_cases (name : String) (dims : Dims)
    (meta : List (String × String)) (color : String) (o : Oracle) :
    (∃ rest, (thumbnailize name dims meta color o).trace ++ rest = tailOrder) ∧
    ((thumbnailize name dims meta color o).result = .ok () ↔
      (thumbnailize name dims meta color o).trace = tailOrder) ∧
    ((thumbnailize name dims meta color o).result = .ok () ∨
      (thumbnailize name dims meta color o).uploads = []) ∧
    FileOp.removedScratch ∉ (thumbnailize name dims meta color o).files := by
  unfold thumbnailize
  cases o.convert with
  | none => exact ⟨⟨tailOrder, rfl⟩, by simp [tailOrder], Or.inr rfl, by simp⟩
  | some u =>
  cases o.identifyFinal with
  | none =>
    exact ⟨⟨[Step.finalDimensionsKnown, .recordExtracted, .uploaded], rfl⟩,
      by simp [tailOrder], Or.inr rfl, by simp⟩
  | some fd =>
  dsimp only
  by_cases hz : fd.width = 0 ∨ fd.height = 0
  · rw [if_pos hz]
    exact ⟨⟨[Step.recordExtracted, .uploaded], rfl⟩, by simp [tailOrder], Or.inr rfl, by simp⟩
  · rw [if_neg hz]
    cases o.readThumbFile with
    | none =>
      exact ⟨⟨[Step.recordExtracted, .uploaded], rfl⟩, by simp [tailOrder], Or.inr rfl, by simp⟩
    | some buffer =>
    dsimp only
    cases extractThumbData buffer fd.width fd.height with
    | error e =>
      exact ⟨⟨[Step.recordExtracted, .uploaded], rfl⟩, by simp [tailOrder], Or.inr rfl, by simp⟩
    | ok td =>
    cases o.writeTemp with
    | none => exact ⟨⟨[Step.uploaded], rfl⟩, by simp [tailOrder], Or.inr rfl, by simp⟩
    | some u2 =>
    cases o.upload with
    | none => exact ⟨⟨[Step.uploaded], rfl⟩, by simp [tailOrder], Or.inr rfl, by simp⟩
    | some u3 => exact ⟨⟨[], rfl⟩, by simp [tailOrder], Or.inl rfl, by simp⟩

/-- C6 (amended): every invocation of `processFile` follows the strictly
linear order Downloaded, DominantColorKnown, MetadataKnown, DimensionsKnown,
Resized, FinalDimensionsKnown (re-queried from the codec, not assumed equal
to the plan), RecordExtracted, Uploaded — dimensions are read after dominant
color and metadata, and there is no blur step; its trace is always a prefix
of that order, it succeeds exactly when every step ran, and a failure aborts
the remaining steps with no upload persisted. -/
theorem processFile_linear (name : String) (o : Oracle) :
    (∃ rest, (processFile name o).trace ++ rest = fullOrder) ∧
    ((processFile name o).result = .ok () ↔ (processFile name o).trace = fullOrder) ∧
    ((processFile name o).result = .ok () ∨ (processFile name o).uploads = []) := by
  unfold processFile
  cases o.download with
  | none => exact ⟨⟨fullOrder, rfl⟩, by simp [fullOrder], Or.inr rfl⟩
  | some u =>
  cases o.dominantColor with
  | none =>
    exact ⟨⟨[Step.dominantColorKnown, .metadataKnown, .dimensionsKnown] ++ tailOrder, rfl⟩,
      by simp [fullOrder], Or.inr rfl⟩
  | some color =>
  cases o.getMetadata with
  | none =>
    exact ⟨⟨[Step.metadataKnown, .dimensionsKnown] ++ tailOrder, rfl⟩,
      by simp [fullOrder], Or.inr rfl⟩
  | some metaOpt =>
  cases o.identifyOrig with
  | none =>
    exact ⟨⟨[Step.dimensionsKnown] ++ tailOrder, rfl⟩, by simp [fullOrder], Or.inr rfl⟩
  | some dims =>
  obtain ⟨⟨rest, hrest⟩, hiff, hupl, -⟩ :=
    thumbnailize_cases name dims (metaOpt.getD []) color o
  refine ⟨⟨rest, ?_⟩, ?_, hupl⟩
  · show ([Step.downloaded, .dominantColorKnown, .metadataKnown, .dimensionsKnown] ++
        (thumbnailize name dims (metaOpt.getD []) color o).trace) ++ rest = fullOrder
    rw [List.append_assoc, hrest]
    rfl
  · show (thumbnailize name dims (metaOpt.getD []) color o).result = .ok () ↔
      [Step.downloaded, .dominantColorKnown, .metadataKnown, .dimensionsKnown] ++
        (thumbnailize name dims (metaOpt.getD []) color o).trace = fullOrder
    rw [hiff, show fullOrder =
      [Step.downloaded, .dominantColorKnown, .metadataKnown, .dimensionsKnown] ++ tailOrder
      from rfl, List.append_right_inj]

/-- Counterexample to C6 as stated: on a fully successful run the actual
trace reads dimensions after dominant color and metadata and contains no
blur step, so it matches neither of the two orders the claim allows
(DimensionsKnown before the color/metadata pair, Blurred between
FinalDimensionsKnown and RecordExtracted). -/
theorem processFile_order_cex :
    (processFile okName oracleOK).result = .ok () ∧
    Step.blurred ∉ (processFile okName oracleOK).trace ∧
    (processFile okName oracleOK).trace ≠
      [.downloaded, .dimensionsKnown, .dominantColorKnown, .metadataKnown,
       .resized, .finalDimensionsKnown, .blurred, .recordExtracted, .uploaded] ∧
    (processFile okName oracleOK).trace ≠
      [.downloaded, .dimensionsKnown, .metadataKnown, .dominantColorKnown,
       .resized, .finalDimensionsKnown, .blurred, .recordExtracted, .uploaded] :=
  ⟨rfl, by decide, by decide, by decide⟩

/-- C7: deletion events (`resourceState` equal to `not_exists`) and
metadata-only updates (`metageneration` not `1`) succeed with no pipeline
step, no scratch file and no upload — no side effects at all; only events
with `metageneration` equal to `1` are processed (then the handler is exactly
`processFile`). -/
theorem thumbnails_filters (ev : TriggerEvent) (o : Oracle) :
    (ev.resourceState = "not_exists" → thumbnails ev o = ⟨[], [], [], .ok ()⟩) ∧
    (ev.metageneration ≠ "1" → thumbnails ev o = ⟨[], [], [], .ok ()⟩) ∧
    (ev.resourceState ≠ "not_exists" → ev.metageneration = "1" →
      thumbnails ev o = processFile ev.name o) := by
  refine ⟨?_, ?_, ?_⟩
  · intro h
    unfold thumbnails
    rw [if_pos h]
  · intro h
    unfold thumbnails
    by_cases hrs : ev.resourceState = "not_exists"
    · rw [if_pos hrs]
    · rw [if_neg hrs, if_neg h]
  · intro h1 h2
    unfold thumbnails
    rw [if_neg h1, if_pos h2]

/-- A deletion event. -/
def evDeleted : TriggerEvent := ⟨("bucket"), ("x.jpg"), ("not_exists"), ("1")⟩

/-- A metadata-only update event. -/
def evMetaUpdate : TriggerEvent := ⟨("bucket"), ("x.jpg"), ("exists"), ("2")⟩

/-- Witness for C7: a deletion event and a metageneration-2 event are both
ignored even though every collaborator call would succeed. -/
theorem thumbnails_filters_witness :
    thumbnails evDeleted oracleOK = ⟨[], [], [], .ok ()⟩ ∧
    thumbnails evMetaUpdate oracleOK = ⟨[], [], [], .ok ()⟩ :=
  ⟨(thumbnails_filters evDeleted oracleOK).1 rfl,
   (thumbnails_filters evMetaUpdate oracleOK).2.1 (by decide)⟩

/-- C8: every successfully processed source image yields exactly one upload,
to `<originalName>.thumbdata`, with content type
`application/octet-stream`, whose body is the extracted ThumbRecord bytes and
whose metadata is the dominantColor entry with the original metadata merged
over it. -/
theorem processFile_upload_artifact (name : String) (o : Oracle)
    (color : String) (metaOpt : Option (List (String × String))) (fd : Dims)
    (buffer td : List Nat)
    (hc : o.dominantColor = some color) (hm : o.getMetadata = some metaOpt)
    (hf : o.identifyFinal = some fd) (hb : o.readThumbFile = some buffer)
    (he : extractThumbData buffer fd.width fd.height = .ok td)
    (hok : (processFile name o).result = .ok ()) :
    (processFile name o).uploads =
      [⟨name ++ ".thumbdata", "application/octet-stream",
        storeMetadata color (metaOpt.getD []), td⟩] := by
  have hz : ¬ (fd.width = 0 ∨ fd.height = 0) := by
    intro hz
    unfold extractThumbData at he
    rw [if_pos hz] at he
    exact Except.noConfusion he
  obtain ⟨d, c, m, i1, cv, i2, rf, wt, up⟩ := o
  dsimp only at hc hm hf hb hok ⊢
  subst hc; subst hm; subst hf; subst hb
  cases d with
  | none => simp [processFile] at hok
  | some u =>
  cases i1 with
  | none => simp [processFile] at hok
  | some dims =>
  cases cv with
  | none => simp [processFile, thumbnailize] at hok
  | some u2 =>
  cases wt with
  | none => simp [processFile, thumbnailize, hz, he] at hok
  | some u3 =>
  cases up with
  | none => simp [processFile, thumbnailize, hz, he] at hok
  | some u4 =>
  simp [processFile, thumbnailize, hz, he]

/-- Witness for C8 on a fully successful concrete run: exactly one upload,
named `photo.jpg.thumbdata`, carrying the 4-byte header plus the single
payload byte of `okBuffer`. -/
theorem processFile_upload_artifact_witness :
    (processFile okName oracleOK).uploads =
      [⟨okName ++ ".thumbdata", "application/octet-stream",
        storeMetadata okColor okMeta, [0x01, 0x01, 54, 37, 0x42]⟩] :=
  processFile_upload_artifact okName oracleOK okColor (some okMeta) ⟨54, 37⟩ okBuffer
    [0x01, 0x01, 54, 37, 0x42] rfl rfl rfl rfl (by decide) rfl

/-- C9 (amended): no invocation ever removes a scratch file — src/index.js
contains no unlink/cleanup call, so both the downloaded copy and the
temporary thumb-data file are left behind whether the run succeeds or
fails. -/
theorem processFile_never_removes (name : String) (o : Oracle) :
    List.count FileOp.removedScratch (processFile name o).files = 0 := by
  rw [List.count_eq_zero]
  unfold processFile
  cases o.download with
  | none => simp
  | some u =>
  cases o.dominantColor with
  | none => simp
  | some color =>
  cases o.getMetadata with
  | none => simp
  | some metaOpt =>
  cases o.identifyOrig with
  | none => simp
  | some dims =>
  obtain ⟨-, -, -, hfiles⟩ := thumbnailize_cases name dims (metaOpt.getD []) color o
  dsimp only
  intro hmem
  rcases List.mem_append.mp hmem with hmem1 | hmem2
  · simp at hmem1
  · exact hfiles hmem2

/-- Counterexample to C9 as stated: a fully successful concrete run creates
scratch files (the downloaded copy and the temp thumb-data file) and removes
none of them before completing. -/
theorem processFile_no_cleanup_cex :
    (processFile okName oracleOK).result = .ok () ∧
    FileOp.createdScratch ∈ (processFile okName oracleOK).files ∧
    FileOp.removedScratch ∉ (processFile okName oracleOK).files :=
  ⟨rfl, by decide, by decide⟩

/-- C10: in the uploaded metadata the original entries take precedence: the
computed `dominantColor` entry is written first and every original entry is
merged over it, so an original key (any key, hence in particular an original
`dominantColor` entry) survives the merge unchanged, and the computed color
is only visible when the original metadata has no `dominantColor` key. -/
theorem storeMetadata_original_precedence (dominantColor : String)
    (orig : List (String × String)) :
    (∀ k v, lookupMeta orig k = some v →
        lookupMeta (storeMetadata dominantColor orig) k = some v) ∧
    (lookupMeta orig ("dominantColor") = none →
        lookupMeta (storeMetadata dominantColor orig) ("dominantColor") = some dominantColor) := by
  constructor
  · intro k v hv
    unfold storeMetadata objectAssign
    unfold lookupMeta at hv ⊢
    rw [List.find?_append]
    cases hf : orig.find? (fun p => p.1 == k) with
    | none => rw [hf] at hv; exact Option.noConfusion hv
    | some p =>
      rw [hf] at hv
      simpa using hv
  · intro hnone
    unfold storeMetadata objectAssign
    unfold lookupMeta at hnone ⊢
    rw [List.find?_append]
    cases hf : orig.find? (fun p => p.1 == ("dominantColor" : String)) with
    | none => simp
    | some p =>
      rw [hf] at hnone
      exact Option.noConfusion hnone

/-- Witness for C10: an original `dominantColor` entry overwrites the
computed color in the uploaded metadata. -/
theorem storeMetadata_original_precedence_witness :
    lookupMeta (storeMetadata okColor [(("dominantColor"), ("original"))]) ("dominantColor") =
      some ("original") :=
  (storeMetadata_original_precedence okColor [(("dominantColor"), ("original"))]).1
    ("dominantColor") ("original") rfl
